import Mathlib

/-!
Shallow embedding of `src/process_monitor.py` (geekeryy/process-monitor).

The embedding models the process-sampling and aggregation engine:
target resolution (`is_pid`, `verify_process_executable`), the sampling
cycle (`collect_data_for_target`, `create_zero_data`, `collect_all_data`,
the monitor loop's append step), the data store (`get_data`,
`save_data_to_file`, `load_data_from_file`) and the statistics
aggregator (`analyze_data`).

Python `dict`s keyed by target are modelled as association lists with
Python's insertion semantics; Python `float`s are modelled as exact
rationals (no claim in scope depends on binary rounding of floats);
`datetime` values are modelled as a record of calendar fields together
with an executable implementation of the `isoformat` textual encoding
and its parse, which is what `save_data_to_file` / `load_data_from_file`
use for timestamps.
-/

namespace ProcessMonitor

/-! ### Character and string helpers

Core `String` functions are re-implemented over `List Char` so that every
definition reduces in the kernel.  `lowerChar` models Python `str.lower`
on the ASCII range (process names in this program are ASCII). -/

/-- ASCII lower-casing of one character, as Python `str.lower` acts on ASCII. -/
def lowerChar (c : Char) : Char :=
  if 65 ≤ c.toNat ∧ c.toNat ≤ 90 then Char.ofNat (c.toNat + 32) else c

/-- Lower-cased character list of a string. -/
def strLower (s : String) : List Char := s.data.map lowerChar

/-- Case-insensitive equality of strings, Python `a.lower() == b.lower()`. -/
def strCaseEq (a b : String) : Bool := strLower a == strLower b

/-- Suffix test on strings, Python `a.endswith(b)`. -/
def strEndsWith (a b : String) : Bool := List.isSuffixOf b.data a.data

/-- Numeric value of an ASCII digit character, `none` for non-digits. -/
def digitVal (c : Char) : Option Nat :=
  if 48 ≤ c.toNat ∧ c.toNat ≤ 57 then some (c.toNat - 48) else none

/-- Accumulating decimal parse of a character list; `none` on the first
non-digit, `none` for the empty list. -/
def parseDigits : List Char → Option Nat → Option Nat
  | [], acc => acc
  | c :: cs, acc =>
    match digitVal c, acc with
    | some d, some a => parseDigits cs (some (10 * a + d))
    | some d, none => parseDigits cs (some d)
    | none, _ => none

/-- Integer parse of a string with an optional sign, modelling the Python
`int(target)` conversion used by `ProcessMonitor.is_pid`. -/
def parseIntStr (s : String) : Option Int :=
  match s.data with
  | '-' :: cs => (parseDigits cs none).map (fun n => -(n : Int))
  | '+' :: cs => (parseDigits cs none).map (fun n => (n : Int))
  | cs => (parseDigits cs none).map (fun n => (n : Int))

/-! ### Timestamps and the `isoformat` textual codec -/

/-- Calendar timestamp, the fields of a Python naive `datetime`. -/
structure DateTime where
  year : Nat
  month : Nat
  day : Nat
  hour : Nat
  minute : Nat
  second : Nat
  microsecond : Nat
deriving DecidableEq, Repr

/-- Field bounds of a `datetime` value that Python can construct. -/
def DateTime.valid (t : DateTime) : Prop :=
  1 ≤ t.year ∧ t.year ≤ 9999 ∧ 1 ≤ t.month ∧ t.month ≤ 12 ∧
  1 ≤ t.day ∧ t.day ≤ 31 ∧ t.hour ≤ 23 ∧ t.minute ≤ 59 ∧
  t.second ≤ 59 ∧ t.microsecond ≤ 999999

instance (t : DateTime) : Decidable t.valid := by
  unfold DateTime.valid; infer_instance

/-- Two-digit zero-padded decimal rendering. -/
def pad2 (n : Nat) : List Char :=
  [Nat.digitChar (n / 10 % 10), Nat.digitChar (n % 10)]

/-- Four-digit zero-padded decimal rendering. -/
def pad4 (n : Nat) : List Char :=
  [Nat.digitChar (n / 1000 % 10), Nat.digitChar (n / 100 % 10),
   Nat.digitChar (n / 10 % 10), Nat.digitChar (n % 10)]

/-- Six-digit zero-padded decimal rendering. -/
def pad6 (n : Nat) : List Char :=
  [Nat.digitChar (n / 100000 % 10), Nat.digitChar (n / 10000 % 10),
   Nat.digitChar (n / 1000 % 10), Nat.digitChar (n / 100 % 10),
   Nat.digitChar (n / 10 % 10), Nat.digitChar (n % 10)]

/-- Python `datetime.isoformat()`: `YYYY-MM-DDTHH:MM:SS`, with a
`.ffffff` microsecond suffix exactly when the microsecond field is
non-zero. -/
def isoformat (t : DateTime) : String :=
  ⟨pad4 t.year ++ '-' :: pad2 t.month ++ '-' :: pad2 t.day ++
   'T' :: pad2 t.hour ++ ':' :: pad2 t.minute ++ ':' :: pad2 t.second ++
   (if t.microsecond = 0 then [] else '.' :: pad6 t.microsecond)⟩

/-- Combine two parsed digits. -/
def parse2 (a b : Char) : Option Nat :=
  match digitVal a, digitVal b with
  | some x, some y => some (10 * x + y)
  | _, _ => none

/-- Combine four parsed digits. -/
def parse4 (a b c d : Char) : Option Nat :=
  match digitVal a, digitVal b, digitVal c, digitVal d with
  | some x, some y, some z, some w => some (1000 * x + 100 * y + 10 * z + w)
  | _, _, _, _ => none

/-- Combine six parsed digits. -/
def parse6 (a b c d e f : Char) : Option Nat :=
  match digitVal a, digitVal b, digitVal c, digitVal d, digitVal e, digitVal f with
  | some x, some y, some z, some w, some v, some u =>
    some (100000 * x + 10000 * y + 1000 * z + 100 * w + 10 * v + u)
  | _, _, _, _, _, _ => none

/-- Range-checked `datetime` construction, as Python validates the parsed
fields of `datetime.fromisoformat` and raises on out-of-range values. -/
def mkDateTime (y mo d h mi se us : Nat) : Option DateTime :=
  if 1 ≤ y ∧ y ≤ 9999 ∧ 1 ≤ mo ∧ mo ≤ 12 ∧ 1 ≤ d ∧ d ≤ 31 ∧
     h ≤ 23 ∧ mi ≤ 59 ∧ se ≤ 59 ∧ us ≤ 999999 then
    some ⟨y, mo, d, h, mi, se, us⟩
  else none

/-- Character-level parse of the `isoformat` layouts emitted by
`isoformat`: 19 characters, or 26 with a microsecond suffix. -/
def parseIso (l : List Char) : Option DateTime :=
  match l with
  | y1 :: y2 :: y3 :: y4 :: s1 :: a1 :: a2 :: s2 :: b1 :: b2 :: s3 ::
    c1 :: c2 :: s4 :: d1 :: d2 :: s5 :: e1 :: e2 :: rest =>
    if s1 = '-' ∧ s2 = '-' ∧ s3 = 'T' ∧ s4 = ':' ∧ s5 = ':' then
      match parse4 y1 y2 y3 y4, parse2 a1 a2, parse2 b1 b2,
            parse2 c1 c2, parse2 d1 d2, parse2 e1 e2 with
      | some y, some mo, some d, some h, some mi, some se =>
        match rest with
        | [] => mkDateTime y mo d h mi se 0
        | s6 :: u1 :: u2 :: u3 :: u4 :: u5 :: u6 :: [] =>
          if s6 = '.' then
            match parse6 u1 u2 u3 u4 u5 u6 with
            | some us => mkDateTime y mo d h mi se us
            | none => none
          else none
        | _ => none
      | _, _, _, _, _, _ => none
    else none
  | _ => none

/-- Python `datetime.fromisoformat` restricted to the layouts that
`isoformat` emits (which is all this program ever feeds it when reading
its own files); any other string fails, as Python raises `ValueError`. -/
def fromisoformat (s : String) : Option DateTime := parseIso s.data

/-! ### Data model

`Sample` is the per-cycle measurement record built by
`ProcessMonitor.collect_data_for_target` / `create_zero_data`; the two
optional metrics are `Option` fields, present exactly when the
corresponding configuration flag was enabled.  Python floats are
modelled as `ℚ`. -/

/-- Row of `ps -p pid -o pid,ppid,pcpu,pmem,rss,vsz,etime,comm,args`, the
result of `ProcessMonitor.get_process_info`. -/
structure ProcInfo where
  pid : Int
  ppid : Int
  cpu_percent : ℚ
  memory_percent : ℚ
  rss_kb : Int
  vsz_kb : Int
  etime : String
  comm : String
  args : String
deriving DecidableEq, Repr

/-- Fields of `ProcessMonitor.get_system_info` that the sampler reads. -/
structure SysInfo where
  load_1min : ℚ
  mem_available_kb : ℚ
deriving DecidableEq, Repr

/-- Monitoring configuration; defaults as in `ProcessMonitor.__init__`. -/
structure MonitorConfig where
  cpu_percent : Bool := true
  memory_percent : Bool := true
  memory_mb : Bool := true
  file_descriptors : Bool := false
  thread_count : Bool := false
deriving DecidableEq, Repr

/-- One collected measurement, the dict built per target per cycle. -/
structure Sample where
  timestamp : DateTime
  target : String
  target_name : String
  pid : Int
  cpu_percent : ℚ
  memory_percent : ℚ
  memory_mb : ℚ
  rss_kb : Int
  vsz_kb : Int
  command : String
  args : String
  system_load : ℚ
  system_mem_available_mb : ℚ
  fd_count : Option Int
  thread_count : Option Int
deriving DecidableEq, Repr

/-- External world as seen by one sampling cycle: the wall clock, the
`ps -p` process table, the (already `pgrep`-and-verify filtered)
name-resolution results, the system info, and the optional-metric
capabilities. -/
structure OSEnv where
  now : DateTime
  procInfo : Int → Option ProcInfo
  pgrep : String → List Int
  sysInfo : Option SysInfo
  fdCount : Int → Int
  threadCount : Int → Int

/-! ### Target resolution -/

/-- `ProcessMonitor.is_pid`: the target parses as an integer. -/
def is_pid (target : String) : Bool := (parseIntStr target).isSome

/-- `ProcessMonitor.verify_process_executable`, given the command name
reported by `ps -p pid -o comm=` (`none` when `ps` failed, `some` the
stripped stdout otherwise).  Accepts on a case-insensitive exact match
or a `/name` or `\name` path suffix; an empty report is rejected. -/
def verify_process_executable (comm : Option String) (process_name : String) : Bool :=
  match comm with
  | none => false
  | some c =>
    if c = "" then false
    else if strCaseEq c process_name then true
    else if strEndsWith c ("/" ++ process_name) then true
    else if strEndsWith c ("\\" ++ process_name) then true
    else false

/-! ### Sampling -/

/-- System-load field of a sample, `0.0` when system info is unavailable. -/
def sysLoad (env : OSEnv) : ℚ :=
  match env.sysInfo with
  | some si => si.load_1min
  | none => 0

/-- Available-memory field of a sample in MB, `0.0` when unavailable. -/
def sysMemAvailMb (env : OSEnv) : ℚ :=
  match env.sysInfo with
  | some si => si.mem_available_kb / 1024
  | none => 0

/-- `ProcessMonitor.create_zero_data`: the synthesized sample for a cycle
in which the target's process could not be measured.  The `pid` argument
is the Python `pid` parameter: `none` stands for Python `None`. -/
def create_zero_data (env : OSEnv) (cfg : MonitorConfig)
    (target target_name : String) (pid : Option Int) : Sample where
  timestamp := env.now
  target := target
  target_name := target_name
  pid := pid.getD 0
  cpu_percent := 0
  memory_percent := 0
  memory_mb := 0
  rss_kb := 0
  vsz_kb := 0
  command := ""
  args := ""
  system_load := sysLoad env
  system_mem_available_mb := sysMemAvailMb env
  fd_count := if cfg.file_descriptors then some 0 else none
  thread_count := if cfg.thread_count then some 0 else none

/-- Success path of `ProcessMonitor.collect_data_for_target`: the sample
built from a live `ps` row. -/
def make_sample (env : OSEnv) (cfg : MonitorConfig)
    (target target_name : String) (pid : Int) (info : ProcInfo) : Sample where
  timestamp := env.now
  target := target
  target_name := target_name
  pid := pid
  cpu_percent := info.cpu_percent
  memory_percent := info.memory_percent
  memory_mb := (info.rss_kb : ℚ) / 1024
  rss_kb := info.rss_kb
  vsz_kb := info.vsz_kb
  command := info.comm
  args := info.args
  system_load := sysLoad env
  system_mem_available_mb := sysMemAvailMb env
  fd_count := if cfg.file_descriptors then some (env.fdCount pid) else none
  thread_count := if cfg.thread_count then some (env.threadCount pid) else none

/-- `ProcessMonitor.collect_data_for_target`.  A numeric target is used
as a direct PID; otherwise the name is resolved via
`find_process_by_name` and the first candidate is measured.  Every
failure branch synthesizes zero data with the pid argument the code
passes at that point. -/
def collect_data_for_target (env : OSEnv) (cfg : MonitorConfig) (target : String) : Sample :=
  match parseIntStr target with
  | some pid =>
    match env.procInfo pid with
    | none => create_zero_data env cfg target ("PID_" ++ toString pid) (some pid)
    | some info => make_sample env cfg target ("PID_" ++ toString pid) pid info
  | none =>
    match env.pgrep target with
    | [] => create_zero_data env cfg target target none
    | pid :: _ =>
      match env.procInfo pid with
      | none => create_zero_data env cfg target target (some pid)
      | some info => make_sample env cfg target target pid info

/-! ### Python dict as an association list -/

/-- First-occurrence lookup, Python `d[k]` / `k in d`. -/
def lookupDict {α : Type} : List (String × α) → String → Option α
  | [], _ => none
  | (k, v) :: rest, t => if k = t then some v else lookupDict rest t

/-- Key list of a dict in insertion order. -/
def dictKeys {α : Type} (st : List (String × α)) : List String := st.map Prod.fst

/-- Python `d[k] = v`: overwrite in place if present, else append. -/
def dictInsert {α : Type} : List (String × α) → String → α → List (String × α)
  | [], k, v => [(k, v)]
  | (k0, v0) :: rest, k, v =>
    if k0 = k then (k0, v) :: rest else (k0, v0) :: dictInsert rest k v

/-- Python `defaultdict(list)`: `d[k].append(x)` — append to the existing
series, or create a fresh one-element series for a new key. -/
def dictAppend {α : Type} : List (String × List α) → String → α → List (String × List α)
  | [], k, x => [(k, [x])]
  | (k0, xs) :: rest, k, x =>
    if k0 = k then (k0, xs ++ [x]) :: rest else (k0, xs) :: dictAppend rest k x

/-- Collected data of a session: target → ordered series. -/
abbrev DataState : Type := List (String × List Sample)

/-- Length of one target's series (0 when absent). -/
def seriesLen (st : DataState) (t : String) : Nat :=
  ((lookupDict st t).getD []).length

/-- `ProcessMonitor.collect_all_data`: one cycle's batch, a dict with one
entry per configured target (duplicate targets collapse, as dict keys). -/
def collect_all_data (env : OSEnv) (cfg : MonitorConfig) (targets : List String) :
    List (String × Sample) :=
  targets.foldl (fun acc t => dictInsert acc t (collect_data_for_target env cfg t)) []

/-- Append step of the monitor loop: the per-cycle batch is written to
the store entry by entry under the single data lock. -/
def append_cycle (batch : List (String × Sample)) (st : DataState) : DataState :=
  batch.foldl (fun st p => dictAppend st p.1 p.2) st

/-- One completed iteration of `monitor_loop`: collect all targets, and
append the batch when it is non-empty (`if all_data:`). -/
def monitor_cycle (env : OSEnv) (cfg : MonitorConfig) (targets : List String)
    (st : DataState) : DataState :=
  let all_data := collect_all_data env cfg targets
  if all_data.isEmpty then st else append_cycle all_data st

/-- State of the store after `n` completed cycles, the environment of
cycle `k` given by `envs k`; the session starts from an empty store. -/
def run_monitoring (envs : Nat → OSEnv) (cfg : MonitorConfig) (targets : List String) :
    Nat → DataState
  | 0 => []
  | n + 1 => monitor_cycle (envs n) cfg targets (run_monitoring envs cfg targets n)

/-! ### Persistence (`save_data_to_file` / `load_data_from_file`)

The JSON file contents are modelled structurally: a mapping from target
to a list of serialized sample records.  A serialized record differs
from an in-memory `Sample` only in its timestamp, which is stored as the
`isoformat` string; the two optional metrics are stored exactly when
present.  `none` at the file level stands for an I/O or JSON error
raised before any record is processed. -/

/-- One serialized sample record as written by `save_data_to_file`. -/
structure SavedSample where
  timestamp : String
  target : String
  target_name : String
  pid : Int
  cpu_percent : ℚ
  memory_percent : ℚ
  memory_mb : ℚ
  rss_kb : Int
  vsz_kb : Int
  command : String
  args : String
  system_load : ℚ
  system_mem_available_mb : ℚ
  fd_count : Option Int
  thread_count : Option Int
deriving DecidableEq, Repr

/-- Serialization of one sample (`save_item` dict of the source):
`isoformat` timestamp, all required fields copied, optional fields
copied exactly when present. -/
def save_item (s : Sample) : SavedSample where
  timestamp := isoformat s.timestamp
  target := s.target
  target_name := s.target_name
  pid := s.pid
  cpu_percent := s.cpu_percent
  memory_percent := s.memory_percent
  memory_mb := s.memory_mb
  rss_kb := s.rss_kb
  vsz_kb := s.vsz_kb
  command := s.command
  args := s.args
  system_load := s.system_load
  system_mem_available_mb := s.system_mem_available_mb
  fd_count := s.fd_count
  thread_count := s.thread_count

/-- Deserialization of one record (`load_item` dict of the source); the
timestamp is parsed with `fromisoformat`, which fails on a malformed
string (Python raises `ValueError`). -/
def load_item (r : SavedSample) : Option Sample :=
  (fromisoformat r.timestamp).map fun ts =>
    { timestamp := ts
      target := r.target
      target_name := r.target_name
      pid := r.pid
      cpu_percent := r.cpu_percent
      memory_percent := r.memory_percent
      memory_mb := r.memory_mb
      rss_kb := r.rss_kb
      vsz_kb := r.vsz_kb
      command := r.command
      args := r.args
      system_load := r.system_load
      system_mem_available_mb := r.system_mem_available_mb
      fd_count := r.fd_count
      thread_count := r.thread_count }

/-- Serialized form of the whole store (`data_to_save` of the source). -/
def save_data (st : DataState) : List (String × List SavedSample) :=
  st.map (fun p => (p.1, p.2.map save_item))

/-- `ProcessMonitor.save_data_to_file`: the store is only read; the file
contents are produced on success (`writeOk`), the failure of the write is
surfaced as `none` (the Python function returns `None` instead of the
filename).  The in-memory store is returned unchanged in either case. -/
def save_data_to_file (writeOk : Bool) (st : DataState) :
    Option (List (String × List SavedSample)) × DataState :=
  (if writeOk then some (save_data st) else none, st)

/-- Inner loop of `load_data_from_file` over one target's records: each
record is parsed and appended; a malformed record aborts with the store
as it stands at that point (the Python exception propagates out of the
loop). -/
def load_items_go (t : String) : List SavedSample → DataState → Bool × DataState
  | [], st => (true, st)
  | r :: rest, st =>
    match load_item r with
    | none => (false, st)
    | some s => load_items_go t rest (dictAppend st t s)

/-- Outer loop of `load_data_from_file` over the file's targets. -/
def load_all_go : List (String × List SavedSample) → DataState → Bool × DataState
  | [], st => (true, st)
  | (t, items) :: rest, st =>
    match load_items_go t items st with
    | (true, st1) => load_all_go rest st1
    | (false, st1) => (false, st1)

/-- `ProcessMonitor.load_data_from_file`.  A file that cannot be opened
or JSON-parsed (`none`) fails before the store is touched.  Otherwise
the store is reset to empty (`self.data = defaultdict(list)`) and rebuilt
record by record; a failure mid-way returns `false` with the store in
its partially rebuilt state, exactly as the Python code leaves it. -/
def load_data_from_file (file : Option (List (String × List SavedSample)))
    (st : DataState) : Bool × DataState :=
  match file with
  | none => (false, st)
  | some entries => load_all_go entries []

/-! ### The store with explicit list references (`get_data`)

Python lists are mutable heap objects; `dict(self.data)` copies the
outer mapping but shares the list objects.  To state claims about that
sharing, the store is also modelled with the indirection explicit: the
mapping holds references (indices) into a heap of series. -/

/-- Store with the Python object graph explicit: `mapping` holds
references into `heap`. -/
structure RefStore where
  mapping : List (String × Nat)
  heap : List (List Sample)

/-- `ProcessMonitor.get_data`: `dict(self.data)` — a fresh outer mapping
containing the same list references. -/
def get_data (st : RefStore) : List (String × Nat) := st.mapping

/-- `self.data[target].append(data)` on the reference model: an existing
key's list object is mutated in place; a missing key gets a fresh list. -/
def ref_append (st : RefStore) (t : String) (s : Sample) : RefStore :=
  match lookupDict st.mapping t with
  | some r => { st with heap := st.heap.set r (st.heap.getD r [] ++ [s]) }
  | none =>
    { mapping := st.mapping ++ [(t, st.heap.length)], heap := st.heap ++ [[s]] }

/-- Reading one series through a snapshot: follow the snapshot's
reference into the current heap. -/
def read_series (heap : List (List Sample)) (snap : List (String × Nat))
    (t : String) : Option (List Sample) :=
  (lookupDict snap t).map (fun r => heap.getD r [])

/-- Well-formed reference store: references are distinct and in range. -/
def RefStore.WF (st : RefStore) : Prop :=
  (st.mapping.map Prod.snd).Nodup ∧ ∀ p ∈ st.mapping, p.2 < st.heap.length

/-! ### Per-cycle timing -/

/-- Sleep duration of one cycle of `monitor_loop`: the code executes
`time.sleep(interval)`; the elapsed collection time of the cycle does
not enter the call. -/
def cycle_sleep (interval elapsed : ℚ) : ℚ := interval

/-- Modelled from the spec: per-cycle sleep of
`max(0, interval - elapsed_collection_time)`, for comparison with the
sleep the code performs. -/
def spec_cycle_sleep (interval elapsed : ℚ) : ℚ := max 0 (interval - elapsed)

/-! ### Statistics aggregation (`PerformanceReportTemplate.analyze_data`)

The analyzer consumes the loaded JSON records.  Optional metric keys are
read with `item.get(key, 0)`, modelled by `Option` fields defaulted to
`0`.  The standard deviation goes through a square root, whose exact
value is a real number; it is the only non-executable piece of the
model. -/

/-- One loaded record as `analyze_data` reads it (timestamp already
parsed; optional metric keys as `Option`). -/
structure ReportItem where
  timestamp : DateTime
  pid : Int
  command : String
  args : String
  cpu_percent : ℚ
  memory_percent : ℚ
  memory_mb : ℚ
  rss_kb : Int
  vsz_kb : Int
  disk_read_bytes : Option ℚ
  disk_write_bytes : Option ℚ
  network_rx_bytes : Option ℚ
  network_tx_bytes : Option ℚ
  voluntary_switches : Option ℚ
  involuntary_switches : Option ℚ
  thread_count : Option ℚ
deriving DecidableEq, Repr

/-- Python `statistics.mean`. -/
def listMean (l : List ℚ) : ℚ := l.sum / l.length

/-- Python `max` over a non-empty list (`0` for `[]`, never used there). -/
def listMax : List ℚ → ℚ
  | [] => 0
  | x :: rest => rest.foldl max x

/-- Python `min` over a non-empty list (`0` for `[]`, never used there). -/
def listMin : List ℚ → ℚ
  | [] => 0
  | x :: rest => rest.foldl min x

/-- Sample variance with Bessel's correction, the square of
`statistics.stdev`. -/
def sampleVariance (l : List ℚ) : ℚ :=
  (l.map (fun x => (x - listMean l) ^ 2)).sum / ((l.length : ℚ) - 1)

/-- Python `statistics.stdev`: square root of the sample variance. -/
noncomputable def stdev (l : List ℚ) : ℝ := Real.sqrt (sampleVariance l)

/-- Python `round` to an integer: round half to even. -/
def roundHalfEven (q : ℚ) : Int :=
  let f := Int.floor q
  let r := q - f
  if r < 1 / 2 then f
  else if 1 / 2 < r then f + 1
  else if f % 2 = 0 then f else f + 1

/-- Python `round(x, 2)` on rationals. -/
def round2 (q : ℚ) : ℚ := (roundHalfEven (q * 100) : ℚ) / 100

/-- Python `round` to an integer on reals: round half to even. -/
noncomputable def roundHalfEvenR (x : ℝ) : Int :=
  let f := Int.floor x
  let r := x - f
  if r < 1 / 2 then f
  else if 1 / 2 < r then f + 1
  else if f % 2 = 0 then f else f + 1

/-- Python `round(x, 2)` on reals. -/
noncomputable def round2R (x : ℝ) : ℝ := (roundHalfEvenR (x * 100) : ℝ) / 100

/-- Per-metric summary block: `{avg, max, min, std, data}` as built for
every metric in `analyze_data`; `std` is `0` below two data points. -/
structure StatBlock where
  avg : ℚ
  max : ℚ
  min : ℚ
  std : ℝ
  data : List ℚ

/-- The summary block the source builds (the same five-entry dict is
repeated verbatim for every metric). -/
noncomputable def mkStats (l : List ℚ) : StatBlock where
  avg := round2 (listMean l)
  max := round2 (listMax l)
  min := round2 (listMin l)
  std := round2R (if 1 < l.length then stdev l else 0)
  data := l

/-- Disk I/O group of the analysis. -/
structure IOStats where
  read_bytes : StatBlock
  write_bytes : StatBlock

/-- Network I/O group of the analysis. -/
structure NetStats where
  rx_bytes : StatBlock
  tx_bytes : StatBlock

/-- Context-switch group of the analysis. -/
structure SwitchStats where
  voluntary : StatBlock
  involuntary : StatBlock

/-- Per-target analysis result (`analysis` dict of the source); the
presentation-only `test_duration`, `start_time` and `end_time` fields
are outside every claim and omitted.  Optional metric groups are present
exactly when the source adds the corresponding key. -/
structure Analysis where
  process_name : String
  pid : Int
  command : String
  args : String
  data_points : Nat
  cpu : StatBlock
  memory_percent : StatBlock
  memory_mb : StatBlock
  rss_kb : Int
  vsz_kb : Int
  disk_io : Option IOStats
  network_io : Option NetStats
  context_switches : Option SwitchStats
  thread_count : Option StatBlock

/-- Analysis of one non-empty series (`process_data = i0 :: rest`).  An
optional group is added exactly when `any(values)` holds for at least
one of its value lists, i.e. some defaulted value is non-zero. -/
noncomputable def analyze_process (process_name : String) (i0 : ReportItem)
    (rest : List ReportItem) : Analysis :=
  let pd := i0 :: rest
  let cpu_data := pd.map (·.cpu_percent)
  let memory_percent_data := pd.map (·.memory_percent)
  let memory_mb_data := pd.map (·.memory_mb)
  let disk_read_data := pd.map (fun i => i.disk_read_bytes.getD 0)
  let disk_write_data := pd.map (fun i => i.disk_write_bytes.getD 0)
  let network_rx_data := pd.map (fun i => i.network_rx_bytes.getD 0)
  let network_tx_data := pd.map (fun i => i.network_tx_bytes.getD 0)
  let voluntary_data := pd.map (fun i => i.voluntary_switches.getD 0)
  let involuntary_data := pd.map (fun i => i.involuntary_switches.getD 0)
  let thread_count_data := pd.map (fun i => i.thread_count.getD 0)
  { process_name := process_name
    pid := i0.pid
    command := i0.command
    args := i0.args
    data_points := pd.length
    cpu := mkStats cpu_data
    memory_percent := mkStats memory_percent_data
    memory_mb := mkStats memory_mb_data
    rss_kb := i0.rss_kb
    vsz_kb := i0.vsz_kb
    disk_io :=
      if disk_read_data.any (fun x => x != 0) || disk_write_data.any (fun x => x != 0) then
        some ⟨mkStats disk_read_data, mkStats disk_write_data⟩
      else none
    network_io :=
      if network_rx_data.any (fun x => x != 0) || network_tx_data.any (fun x => x != 0) then
        some ⟨mkStats network_rx_data, mkStats network_tx_data⟩
      else none
    context_switches :=
      if voluntary_data.any (fun x => x != 0) || involuntary_data.any (fun x => x != 0) then
        some ⟨mkStats voluntary_data, mkStats involuntary_data⟩
      else none
    thread_count :=
      if thread_count_data.any (fun x => x != 0) then
        some (mkStats thread_count_data)
      else none }

/-- `PerformanceReportTemplate.analyze_data`: fails (`return False`) on
an empty mapping; otherwise analyzes every target with a non-empty
series, skipping empty series (`if not process_data: continue`). -/
noncomputable def analyze_data (data : List (String × List ReportItem)) :
    Bool × List (String × Analysis) :=
  if data.isEmpty then (false, [])
  else
    (true, data.filterMap (fun p =>
      match p.2 with
      | [] => none
      | i0 :: rest => some (p.1, analyze_process p.1 i0 rest)))

/-! ### Sample metric-zeroing predicate and concrete fixtures -/

/-- All measured metrics of a sample are zero and its process fields are
empty — the shape `create_zero_data` produces. -/
def is_zero_metrics (s : Sample) : Prop :=
  s.cpu_percent = 0 ∧ s.memory_percent = 0 ∧ s.memory_mb = 0 ∧
  s.rss_kb = 0 ∧ s.vsz_kb = 0 ∧ s.command = "" ∧ s.args = ""

/-- Fixed timestamp used by the concrete test environments. -/
def testNow : DateTime := ⟨2024, 1, 2, 3, 4, 5, 0⟩

/-- Environment in which every process lookup fails. -/
def env0 : OSEnv where
  now := testNow
  procInfo := fun _ => none
  pgrep := fun _ => []
  sysInfo := none
  fdCount := fun _ => 0
  threadCount := fun _ => 0

/-- Default monitoring configuration. -/
def cfg0 : MonitorConfig := {}

/-- A concrete sample (the zero sample of target `svc` under `env0`). -/
def sampleA : Sample := create_zero_data env0 cfg0 "svc" "svc" none

/-- A concrete reference store holding one one-sample series. -/
def refStore0 : RefStore where
  mapping := [("svc", 0)]
  heap := [[sampleA]]

/-- A serialized record with a malformed timestamp string. -/
def badSaved : SavedSample where
  timestamp := "bad"
  target := "t"
  target_name := "t"
  pid := 0
  cpu_percent := 0
  memory_percent := 0
  memory_mb := 0
  rss_kb := 0
  vsz_kb := 0
  command := ""
  args := ""
  system_load := 0
  system_mem_available_mb := 0
  fd_count := none
  thread_count := none

/-- A concrete non-empty store. -/
def stData0 : DataState := [("x", [sampleA])]

/-- A concrete loaded record with no optional metrics. -/
def item0 : ReportItem where
  timestamp := testNow
  pid := 1
  command := "c"
  args := ""
  cpu_percent := 2
  memory_percent := 1
  memory_mb := 10
  rss_kb := 100
  vsz_kb := 200
  disk_read_bytes := none
  disk_write_bytes := none
  network_rx_bytes := none
  network_tx_bytes := none
  voluntary_switches := none
  involuntary_switches := none
  thread_count := none

theorem digitVal_digitChar : ∀ k, k < 10 → digitVal (Nat.digitChar k) = some k := by
  decide

theorem parse2_pad (n : Nat) (h : n < 100) :
    parse2 (Nat.digitChar (n / 10 % 10)) (Nat.digitChar (n % 10)) = some n := by
  unfold parse2
  rw [digitVal_digitChar _ (Nat.mod_lt _ (by omega)),
      digitVal_digitChar _ (Nat.mod_lt _ (by omega))]
  simp only [Option.some.injEq]
  omega

theorem parse4_pad (n : Nat) (h : n < 10000) :
    parse4 (Nat.digitChar (n / 1000 % 10)) (Nat.digitChar (n / 100 % 10))
      (Nat.digitChar (n / 10 % 10)) (Nat.digitChar (n % 10)) = some n := by
  unfold parse4
  rw [digitVal_digitChar _ (Nat.mod_lt _ (by omega)),
      digitVal_digitChar _ (Nat.mod_lt _ (by omega)),
      digitVal_digitChar _ (Nat.mod_lt _ (by omega)),
      digitVal_digitChar _ (Nat.mod_lt _ (by omega))]
  simp only [Option.some.injEq]
  omega

theorem parse6_pad (n : Nat) (h : n < 1000000) :
    parse6 (Nat.digitChar (n / 100000 % 10)) (Nat.digitChar (n / 10000 % 10))
      (Nat.digitChar (n / 1000 % 10)) (Nat.digitChar (n / 100 % 10))
      (Nat.digitChar (n / 10 % 10)) (Nat.digitChar (n % 10)) = some n := by
  unfold parse6
  rw [digitVal_digitChar _ (Nat.mod_lt _ (by omega)),
      digitVal_digitChar _ (Nat.mod_lt _ (by omega)),
      digitVal_digitChar _ (Nat.mod_lt _ (by omega)),
      digitVal_digitChar _ (Nat.mod_lt _ (by omega)),
      digitVal_digitChar _ (Nat.mod_lt _ (by omega)),
      digitVal_digitChar _ (Nat.mod_lt _ (by omega))]
  simp only [Option.some.injEq]
  omega

/-- The textual timestamp codec is the identity on every valid
`datetime`: parsing the printed form recovers the original value. -/
theorem fromisoformat_isoformat (t : DateTime) (h : t.valid) :
    fromisoformat (isoformat t) = some t := by
  obtain ⟨h1, h2, h3, h4, h5, h6, h7, h8, h9, h10⟩ := h
  by_cases hu : t.microsecond = 0
  · show parseIso _ = some t
    simp only [isoformat, hu, if_pos, pad4, pad2, List.cons_append, List.nil_append,
      List.append_nil, ite_true]
    simp only [parseIso, parse4_pad t.year (by omega), parse2_pad t.month (by omega),
      parse2_pad t.day (by omega), parse2_pad t.hour (by omega),
      parse2_pad t.minute (by omega), parse2_pad t.second (by omega),
      and_self, ite_true, reduceIte]
    simp only [mkDateTime, if_pos (by omega :
      1 ≤ t.year ∧ t.year ≤ 9999 ∧ 1 ≤ t.month ∧ t.month ≤ 12 ∧ 1 ≤ t.day ∧
      t.day ≤ 31 ∧ t.hour ≤ 23 ∧ t.minute ≤ 59 ∧ t.second ≤ 59 ∧ (0 : Nat) ≤ 999999)]
    rw [← hu]
  · show parseIso _ = some t
    simp only [isoformat, hu, pad4, pad2, pad6, List.cons_append, List.nil_append,
      List.append_nil, ite_false, if_neg hu]
    simp only [parseIso, parse4_pad t.year (by omega), parse2_pad t.month (by omega),
      parse2_pad t.day (by omega), parse2_pad t.hour (by omega),
      parse2_pad t.minute (by omega), parse2_pad t.second (by omega),
      parse6_pad t.microsecond (by omega), and_self, ite_true, reduceIte]
    simp only [mkDateTime, if_pos (by omega :
      1 ≤ t.year ∧ t.year ≤ 9999 ∧ 1 ≤ t.month ∧ t.month ≤ 12 ∧ 1 ≤ t.day ∧
      t.day ≤ 31 ∧ t.hour ≤ 23 ∧ t.minute ≤ 59 ∧ t.second ≤ 59 ∧
      t.microsecond ≤ 999999)]

/-! ### C5 — per-cycle sleep -/

/-- C5 counterexample: the claim says the per-cycle sleep equals
`max(0, interval − elapsed_collection_time)`; at interval 5 and elapsed
collection time 2 the code sleeps 5, not 3. -/
theorem c5_sleep_counterexample : cycle_sleep 5 2 ≠ spec_cycle_sleep 5 2 := by
  norm_num [cycle_sleep, spec_cycle_sleep]

/-- C5 (amended): in every sampling cycle the loop sleeps the full
interval (`time.sleep(interval)`); the elapsed collection time does not
shorten the sleep, so the sleep exceeds `max(0, interval − elapsed)`
whenever collection took positive time within the interval. -/
theorem c5_sleep_full_interval :
    (∀ interval elapsed : ℚ, cycle_sleep interval elapsed = interval) ∧
    (∀ interval elapsed : ℚ, 0 < elapsed → 0 < interval →
      spec_cycle_sleep interval elapsed < cycle_sleep interval elapsed) := by
  constructor
  · intro i e; rfl
  · intro i e he hi
    simp only [cycle_sleep, spec_cycle_sleep, max_lt_iff]
    constructor <;> linarith

/-- C5 witness: at interval 5, elapsed 2, the sleep is 5 and exceeds the
spec's `max(0, 5 − 2)`. -/
theorem c5_sleep_full_interval_witness :
    (0 : ℚ) < 2 ∧ (0 : ℚ) < 5 ∧ spec_cycle_sleep 5 2 < cycle_sleep 5 2 :=
  ⟨by norm_num, by norm_num, c5_sleep_full_interval.2 5 2 (by norm_num) (by norm_num)⟩

/-! ### C6 — executable verification -/

/-- C6: executable verification accepts a PID exactly when the reported
command name (non-empty) equals the requested name case-insensitively or
ends with `/name` or `\name`; in particular the command name `foobar` is
rejected for the requested name `foo`, and a failed `ps` query is
rejected. -/
theorem c6_verify_executable_match :
    (∀ comm process_name : String,
      verify_process_executable (some comm) process_name = true ↔
        (comm ≠ "" ∧
          (strLower comm = strLower process_name ∨
           ("/" ++ process_name).data <:+ comm.data ∨
           ("\\" ++ process_name).data <:+ comm.data))) ∧
    verify_process_executable (some "foobar") "foo" = false ∧
    (∀ process_name, verify_process_executable none process_name = false) := by
  refine ⟨?_, by decide, fun _ => rfl⟩
  intro comm process_name
  simp only [verify_process_executable, strCaseEq, strEndsWith]
  by_cases h0 : comm = ""
  · simp [h0]
  · simp only [h0, if_false, ne_eq, not_false_eq_true, true_and]
    by_cases h1 : strLower comm = strLower process_name
    · simp [h1]
    · simp only [h1, false_or]
      have hb : (strLower comm == strLower process_name) = false := by
        simp [h1]
      simp only [hb, if_false]
      by_cases h2 : ("/" ++ process_name).data <:+ comm.data
      · simp [List.isSuffixOf_iff_suffix, h2]
      · simp only [List.isSuffixOf_iff_suffix, h2, false_or, if_neg h2]
        by_cases h3 : ("\\" ++ process_name).data <:+ comm.data
        · simp [h3]
        · simp [h3]

/-- C6 witness: the match characterization applied at concrete inputs —
a path suffix `/usr/bin/foo` is accepted for `foo`, `foobar` is not. -/
theorem c6_verify_executable_match_witness :
    verify_process_executable (some "/usr/bin/foo") "foo" = true ∧
    verify_process_executable (some "foobar") "foo" = false :=
  ⟨(c6_verify_executable_match.1 "/usr/bin/foo" "foo").2
      ⟨by decide, Or.inr (Or.inl ⟨"/usr/bin".data, by decide⟩)⟩,
   c6_verify_executable_match.2.1⟩

/-! ### C2 — zero samples on failure -/

/-- C2 counterexample: for the numeric target `"1234"` whose process is
absent, the synthesized zero-valued sample carries PID 1234, not 0 — the
claim says every synthesized zero sample carries PID 0. -/
theorem c2_zero_pid_counterexample :
    (collect_data_for_target env0 cfg0 "1234").pid ≠ 0 ∧
    (collect_data_for_target env0 cfg0 "1234").cpu_percent = 0 ∧
    (collect_data_for_target env0 cfg0 "1234").pid = 1234 := by
  have h : parseIntStr "1234" = some 1234 := by decide
  refine ⟨?_, ?_, ?_⟩ <;>
    simp [collect_data_for_target, h, env0, create_zero_data]

/-- C2 (amended): in every cycle in which resolution or collection fails
the synthesized sample carries the target identifier and zero metrics;
its PID is 0 exactly when no candidate PID had been determined (name
resolution found nothing), and otherwise is the PID that was being
measured (the numeric target itself, or the first resolved candidate). -/
theorem c2_zero_sample_fields :
    (∀ (env : OSEnv) (cfg : MonitorConfig) (t : String) (p : Int),
      parseIntStr t = some p → env.procInfo p = none →
        is_zero_metrics (collect_data_for_target env cfg t) ∧
        (collect_data_for_target env cfg t).target = t ∧
        (collect_data_for_target env cfg t).pid = p) ∧
    (∀ (env : OSEnv) (cfg : MonitorConfig) (t : String),
      parseIntStr t = none → env.pgrep t = [] →
        is_zero_metrics (collect_data_for_target env cfg t) ∧
        (collect_data_for_target env cfg t).target = t ∧
        (collect_data_for_target env cfg t).pid = 0) ∧
    (∀ (env : OSEnv) (cfg : MonitorConfig) (t : String) (p : Int) (ps : List Int),
      parseIntStr t = none → env.pgrep t = p :: ps → env.procInfo p = none →
        is_zero_metrics (collect_data_for_target env cfg t) ∧
        (collect_data_for_target env cfg t).target = t ∧
        (collect_data_for_target env cfg t).pid = p) := by
  refine ⟨?_, ?_, ?_⟩
  · intro env cfg t p hp hinfo
    simp [collect_data_for_target, hp, hinfo, create_zero_data, is_zero_metrics]
  · intro env cfg t hp hres
    simp [collect_data_for_target, hp, hres, create_zero_data, is_zero_metrics]
  · intro env cfg t p ps hp hres hinfo
    simp [collect_data_for_target, hp, hres, hinfo, create_zero_data, is_zero_metrics]

/-- C2 witness: under `env0` the unresolvable name `svc` yields a zero
sample with PID 0, and the absent numeric target `"77"` yields a zero
sample with PID 77. -/
theorem c2_zero_sample_fields_witness :
    (is_zero_metrics (collect_data_for_target env0 cfg0 "svc") ∧
      (collect_data_for_target env0 cfg0 "svc").target = "svc" ∧
      (collect_data_for_target env0 cfg0 "svc").pid = 0) ∧
    (is_zero_metrics (collect_data_for_target env0 cfg0 "77") ∧
      (collect_data_for_target env0 cfg0 "77").target = "77" ∧
      (collect_data_for_target env0 cfg0 "77").pid = 77) :=
  ⟨c2_zero_sample_fields.2.1 env0 cfg0 "svc" (by decide) rfl,
   c2_zero_sample_fields.1 env0 cfg0 "77" 77 (by decide) rfl⟩

/-! ### C9 — persistence failures and the in-memory store -/

/-- C9 counterexample: a file that JSON-parses but contains a record
with a malformed timestamp makes `load_data_from_file` return `false`
with the in-memory store cleared — not left as it was before the call,
as the claim requires for every load failure. -/
theorem c9_load_failure_counterexample :
    (load_data_from_file (some [("t", [badSaved])]) stData0).1 = false ∧
    (load_data_from_file (some [("t", [badSaved])]) stData0).2 ≠ stData0 := by
  have h : load_item badSaved = none := rfl
  constructor
  · simp [load_data_from_file, load_all_go, load_items_go, h]
  · simp [load_data_from_file, load_all_go, load_items_go, h, stData0]

/-- C9 (amended): persistence failures are surfaced as explicit failure
results (save returns no filename, load returns `false`); a save never
touches the in-memory store, and a load that fails before any record is
processed (unreadable file or JSON error) leaves the store unchanged —
but a failure while converting parsed records leaves the store cleared
or partially rebuilt. -/
theorem c9_persistence_failure_state :
    (∀ (writeOk : Bool) (st : DataState),
      (save_data_to_file writeOk st).2 = st ∧
      (writeOk = false → (save_data_to_file writeOk st).1 = none)) ∧
    (∀ st : DataState, load_data_from_file none st = (false, st)) := by
  refine ⟨fun writeOk st => ⟨rfl, fun h => ?_⟩, fun st => rfl⟩
  simp [save_data_to_file, h]

/-- C9 witness: a failed write of the concrete store returns no filename
and leaves the store unchanged; an unreadable file fails the load with
the store unchanged. -/
theorem c9_persistence_failure_state_witness :
    ((save_data_to_file false stData0).2 = stData0 ∧
      (false = false → (save_data_to_file false stData0).1 = none)) ∧
    load_data_from_file none stData0 = (false, stData0) :=
  ⟨c9_persistence_failure_state.1 false stData0,
   c9_persistence_failure_state.2 stData0⟩

/-! ### C10 — analysis of empty series and empty mappings -/

/-- C10 counterexample: the empty mapping parses, yet `analyze_data`
returns the explicit failure result — the claim says the analysis step
succeeds for every mapping that parses. -/
theorem c10_empty_mapping_counterexample :
    (analyze_data []).1 = false := rfl

/-- C10 (amended): for every non-empty well-shaped mapping, analysis
succeeds, and a target whose sample list is empty is skipped: it
produces no entry in the per-target results (so no statistic over an
empty list and no first-sample access is ever evaluated for it). -/
theorem c10_empty_series_skipped (d : List (String × List ReportItem))
    (hne : d ≠ []) (hnd : (dictKeys d).Nodup) :
    (analyze_data d).1 = true ∧
    ∀ t, (t, ([] : List ReportItem)) ∈ d → ∀ a, (t, a) ∉ (analyze_data d).2 := by
  constructor
  · simp [analyze_data, hne]
  · intro t hmem a hcontra
    have hd : d.isEmpty = false := by
      cases d with
      | nil => exact absurd rfl hne
      | cons x xs => rfl
    unfold analyze_data at hcontra
    rw [hd] at hcontra
    simp only [Bool.false_eq_true, if_false, List.mem_filterMap] at hcontra
    rcases hcontra with ⟨p, hp, hsome⟩
    rcases p with ⟨t', pd⟩
    cases pd with
    | nil => simp at hsome
    | cons i0 rest =>
      simp only [Option.some.injEq, Prod.mk.injEq] at hsome
      obtain ⟨ht, -⟩ := hsome
      have hnd' : (d.map Prod.fst).Nodup := hnd
      have heq := List.inj_on_of_nodup_map hnd' hp hmem ht
      simp at heq

/-- C10 witness: the concrete mapping with one non-empty and one
empty-series target analyzes successfully and drops the empty one. -/
theorem c10_empty_series_skipped_witness :
    (analyze_data [("a", [item0]), ("b", [])]).1 = true ∧
    ∀ t, (t, ([] : List ReportItem)) ∈ [("a", [item0]), ("b", [])] →
      ∀ a, (t, a) ∉ (analyze_data [("a", [item0]), ("b", [])]).2 :=
  c10_empty_series_skipped [("a", [item0]), ("b", [])] (by simp) (by decide)

/-! ### C1 — one sample per target per completed cycle -/

theorem lookupDict_dictAppend_self {α : Type} (st : List (String × List α))
    (k : String) (x : α) :
    lookupDict (dictAppend st k x) k = some ((lookupDict st k).getD [] ++ [x]) := by
  induction st with
  | nil => simp [dictAppend, lookupDict]
  | cons p rest ih =>
    obtain ⟨k0, xs⟩ := p
    by_cases h : k0 = k
    · subst h; simp [dictAppend, lookupDict]
    · simp [dictAppend, lookupDict, h, ih]

theorem dictKeys_nil {α : Type} : dictKeys ([] : List (String × α)) = [] := rfl

theorem dictKeys_cons {α : Type} (p : String × α) (l : List (String × α)) :
    dictKeys (p :: l) = p.1 :: dictKeys l := rfl

theorem lookupDict_dictAppend_ne {α : Type} (st : List (String × List α))
    (k t : String) (x : α) (h : k ≠ t) :
    lookupDict (dictAppend st k x) t = lookupDict st t := by
  induction st with
  | nil => simp [dictAppend, lookupDict, h]
  | cons p rest ih =>
    obtain ⟨k0, xs⟩ := p
    by_cases h0 : k0 = k
    · subst h0; simp [dictAppend, lookupDict, h]
    · by_cases h1 : k0 = t
      · subst h1; simp [dictAppend, lookupDict, h0]
      · simp [dictAppend, lookupDict, h0, h1, ih]

theorem seriesLen_dictAppend_self (st : DataState) (k : String) (x : Sample) :
    seriesLen (dictAppend st k x) k = seriesLen st k + 1 := by
  simp [seriesLen, lookupDict_dictAppend_self]

theorem seriesLen_dictAppend_ne (st : DataState) (k t : String) (x : Sample)
    (h : k ≠ t) : seriesLen (dictAppend st k x) t = seriesLen st t := by
  simp [seriesLen, lookupDict_dictAppend_ne _ _ _ _ h]

theorem seriesLen_append_cycle_not_mem (batch : List (String × Sample))
    (st : DataState) (t : String) (h : t ∉ dictKeys batch) :
    seriesLen (append_cycle batch st) t = seriesLen st t := by
  induction batch generalizing st with
  | nil => rfl
  | cons p rest ih =>
    obtain ⟨k, v⟩ := p
    simp only [dictKeys, List.map_cons, List.mem_cons, not_or] at h
    rw [show append_cycle ((k, v) :: rest) st = append_cycle rest (dictAppend st k v)
      from rfl]
    rw [ih _ h.2, seriesLen_dictAppend_ne _ _ _ _ (fun hk => h.1 hk.symm)]

theorem seriesLen_append_cycle_mem (batch : List (String × Sample))
    (st : DataState) (t : String) (hnd : (dictKeys batch).Nodup)
    (h : t ∈ dictKeys batch) :
    seriesLen (append_cycle batch st) t = seriesLen st t + 1 := by
  induction batch generalizing st with
  | nil => simp [dictKeys] at h
  | cons p rest ih =>
    obtain ⟨k, v⟩ := p
    simp only [dictKeys, List.map_cons, List.nodup_cons] at hnd
    simp only [dictKeys, List.map_cons, List.mem_cons] at h
    rw [show append_cycle ((k, v) :: rest) st = append_cycle rest (dictAppend st k v)
      from rfl]
    rcases h with h | h
    · subst h
      rw [seriesLen_append_cycle_not_mem rest _ t hnd.1, seriesLen_dictAppend_self]
    · have hne : k ≠ t := fun hk => hnd.1 (hk ▸ h)
      rw [ih _ hnd.2 h, seriesLen_dictAppend_ne _ _ _ _ hne]

theorem mem_dictKeys_dictInsert {α : Type} (st : List (String × α))
    (k : String) (v : α) (t : String) :
    t ∈ dictKeys (dictInsert st k v) ↔ t ∈ dictKeys st ∨ t = k := by
  induction st with
  | nil => simp [dictInsert, dictKeys]
  | cons p rest ih =>
    obtain ⟨k0, v0⟩ := p
    by_cases h : k0 = k
    · subst h
      rw [show dictInsert ((k0, v0) :: rest) k0 v = (k0, v) :: rest from by
        simp [dictInsert]]
      rw [dictKeys_cons, dictKeys_cons]
      simp only [List.mem_cons]
      tauto
    · rw [show dictInsert ((k0, v0) :: rest) k v = (k0, v0) :: dictInsert rest k v from by
        simp [dictInsert, h]]
      rw [dictKeys_cons, dictKeys_cons]
      simp only [List.mem_cons]
      rw [ih]
      tauto

theorem nodup_dictKeys_dictInsert {α : Type} (st : List (String × α))
    (k : String) (v : α) (h : (dictKeys st).Nodup) :
    (dictKeys (dictInsert st k v)).Nodup := by
  induction st with
  | nil => simp [dictInsert, dictKeys]
  | cons p rest ih =>
    obtain ⟨k0, v0⟩ := p
    by_cases hk : k0 = k
    · subst hk
      rw [show dictInsert ((k0, v0) :: rest) k0 v = (k0, v) :: rest from by
        simp [dictInsert]]
      rwa [dictKeys_cons, List.nodup_cons] at h ⊢
    · rw [show dictInsert ((k0, v0) :: rest) k v = (k0, v0) :: dictInsert rest k v from by
        simp [dictInsert, hk]]
      rw [dictKeys_cons, List.nodup_cons] at h
      rw [dictKeys_cons, List.nodup_cons]
      refine ⟨fun hmem => ?_, ih h.2⟩
      rcases (mem_dictKeys_dictInsert rest k v k0).1 hmem with hm | hm
      · exact h.1 hm
      · exact hk hm

theorem mem_dictKeys_foldl_dictInsert {α : Type} (l : List String) (f : String → α)
    (acc : List (String × α)) (t : String) :
    t ∈ dictKeys (l.foldl (fun acc x => dictInsert acc x (f x)) acc) ↔
      t ∈ dictKeys acc ∨ t ∈ l := by
  induction l generalizing acc with
  | nil => simp
  | cons x xs ih =>
    rw [List.foldl_cons, ih, mem_dictKeys_dictInsert]
    simp [List.mem_cons]
    tauto

theorem nodup_dictKeys_foldl_dictInsert {α : Type} (l : List String) (f : String → α)
    (acc : List (String × α)) (h : (dictKeys acc).Nodup) :
    (dictKeys (l.foldl (fun acc x => dictInsert acc x (f x)) acc)).Nodup := by
  induction l generalizing acc with
  | nil => exact h
  | cons x xs ih => exact ih _ (nodup_dictKeys_dictInsert _ _ _ h)

theorem mem_dictKeys_collect_all_data (env : OSEnv) (cfg : MonitorConfig)
    (targets : List String) (t : String) :
    t ∈ dictKeys (collect_all_data env cfg targets) ↔ t ∈ targets := by
  rw [collect_all_data, mem_dictKeys_foldl_dictInsert]
  simp [dictKeys]

theorem nodup_dictKeys_collect_all_data (env : OSEnv) (cfg : MonitorConfig)
    (targets : List String) :
    (dictKeys (collect_all_data env cfg targets)).Nodup := by
  rw [collect_all_data]
  exact nodup_dictKeys_foldl_dictInsert _ _ _ (by simp [dictKeys])

theorem collect_all_data_isEmpty_false (env : OSEnv) (cfg : MonitorConfig)
    (targets : List String) (t : String) (h : t ∈ targets) :
    (collect_all_data env cfg targets).isEmpty = false := by
  have hmem : t ∈ dictKeys (collect_all_data env cfg targets) :=
    (mem_dictKeys_collect_all_data env cfg targets t).2 h
  cases hc : collect_all_data env cfg targets with
  | nil => rw [hc] at hmem; simp [dictKeys] at hmem
  | cons p rest => rfl

/-- C1: after `n` completed sampling cycles, every configured target's
series holds exactly `n` samples — each cycle appends exactly one sample
(real or zero-valued) per configured target, so the series lengths of
all configured targets are always equal. -/
theorem c1_series_length_after_n_cycles (envs : Nat → OSEnv) (cfg : MonitorConfig)
    (targets : List String) (n : Nat) :
    ∀ t ∈ targets, seriesLen (run_monitoring envs cfg targets n) t = n := by
  intro t ht
  induction n with
  | zero => rfl
  | succ n ih =>
    rw [run_monitoring, monitor_cycle]
    simp only [collect_all_data_isEmpty_false (envs n) cfg targets t ht,
      Bool.false_eq_true, if_false]
    rw [seriesLen_append_cycle_mem _ _ _ (nodup_dictKeys_collect_all_data _ _ _)
      ((mem_dictKeys_collect_all_data _ _ _ _).2 ht), ih]

/-- C1 witness: three cycles over two concrete targets (one name, one
numeric) under an environment where every lookup fails give each target
a series of exactly three (zero-valued) samples. -/
theorem c1_series_length_after_n_cycles_witness :
    seriesLen (run_monitoring (fun _ => env0) cfg0 ["svc", "1234"] 3) "svc" = 3 ∧
    seriesLen (run_monitoring (fun _ => env0) cfg0 ["svc", "1234"] 3) "1234" = 3 :=
  ⟨c1_series_length_after_n_cycles (fun _ => env0) cfg0 ["svc", "1234"] 3 "svc"
      (by simp),
   c1_series_length_after_n_cycles (fun _ => env0) cfg0 ["svc", "1234"] 3 "1234"
      (by simp)⟩

/-! ### C3 — save/load round trip -/

theorem load_item_save_item (s : Sample) (h : s.timestamp.valid) :
    load_item (save_item s) = some s := by
  unfold load_item save_item
  dsimp only
  rw [fromisoformat_isoformat _ h]
  rfl

theorem dictKeys_append {α : Type} (a b : List (String × α)) :
    dictKeys (a ++ b) = dictKeys a ++ dictKeys b := by
  simp [dictKeys]

theorem dictAppend_not_mem {α : Type} (st : List (String × List α)) (t : String)
    (x : α) (h : t ∉ dictKeys st) :
    dictAppend st t x = st ++ [(t, [x])] := by
  induction st with
  | nil => rfl
  | cons p rest ih =>
    obtain ⟨k, xs⟩ := p
    rw [dictKeys_cons, List.mem_cons, not_or] at h
    have hkt : ¬k = t := fun hk => h.1 hk.symm
    rw [show dictAppend ((k, xs) :: rest) t x = (k, xs) :: dictAppend rest t x from by
      simp [dictAppend, hkt]]
    rw [ih h.2]
    rfl

theorem dictAppend_append_last {α : Type} (pre : List (String × List α)) (t : String)
    (xs : List α) (x : α) (h : t ∉ dictKeys pre) :
    dictAppend (pre ++ [(t, xs)]) t x = pre ++ [(t, xs ++ [x])] := by
  induction pre with
  | nil => simp [dictAppend]
  | cons p rest ih =>
    obtain ⟨k, ys⟩ := p
    rw [dictKeys_cons, List.mem_cons, not_or] at h
    have hkt : ¬k = t := fun hk => h.1 hk.symm
    rw [List.cons_append,
      show dictAppend ((k, ys) :: (rest ++ [(t, xs)])) t x =
        (k, ys) :: dictAppend (rest ++ [(t, xs)]) t x from by
      simp [dictAppend, hkt]]
    rw [ih h.2]
    rfl

theorem foldl_dictAppend_extend {α : Type} (xs : List α) (pre : List (String × List α))
    (t : String) (init : List α) (h : t ∉ dictKeys pre) :
    xs.foldl (fun acc s => dictAppend acc t s) (pre ++ [(t, init)]) =
      pre ++ [(t, init ++ xs)] := by
  induction xs generalizing init with
  | nil => simp
  | cons y ys ih =>
    rw [List.foldl_cons, dictAppend_append_last pre t init y h, ih (init ++ [y])]
    simp

theorem foldl_dictAppend_fresh {α : Type} (xs : List α) (pre : List (String × List α))
    (t : String) (h : t ∉ dictKeys pre) (hne : xs ≠ []) :
    xs.foldl (fun acc s => dictAppend acc t s) pre = pre ++ [(t, xs)] := by
  cases xs with
  | nil => exact absurd rfl hne
  | cons y ys =>
    rw [List.foldl_cons, dictAppend_not_mem pre t y h,
      foldl_dictAppend_extend ys pre t [y] h]
    rfl

theorem load_items_go_save (t : String) (samples : List Sample)
    (hval : ∀ s ∈ samples, s.timestamp.valid) (st : DataState) :
    load_items_go t (samples.map save_item) st =
      (true, samples.foldl (fun acc s => dictAppend acc t s) st) := by
  induction samples generalizing st with
  | nil => rfl
  | cons s rest ih =>
    rw [List.map_cons, List.foldl_cons]
    simp only [load_items_go, load_item_save_item s (hval s (by simp))]
    exact ih (fun x hx => hval x (List.mem_cons_of_mem _ hx)) _

theorem load_all_go_save (st : DataState) (pre : DataState)
    (hdis : ∀ x ∈ dictKeys st, x ∉ dictKeys pre)
    (hnd : (dictKeys st).Nodup)
    (hne : ∀ p ∈ st, p.2 ≠ [])
    (hval : ∀ p ∈ st, ∀ s ∈ p.2, s.timestamp.valid) :
    load_all_go (save_data st) pre = (true, pre ++ st) := by
  induction st generalizing pre with
  | nil => simp [save_data, load_all_go]
  | cons p rest ih =>
    obtain ⟨t, samples⟩ := p
    rw [dictKeys_cons, List.nodup_cons] at hnd
    have hpre : t ∉ dictKeys pre := hdis t (by rw [dictKeys_cons]; exact List.mem_cons_self _ _)
    have h1 : load_items_go t (samples.map save_item) pre = (true, pre ++ [(t, samples)]) := by
      rw [load_items_go_save t samples (hval (t, samples) (by simp)) pre,
        foldl_dictAppend_fresh samples pre t hpre (hne (t, samples) (by simp))]
    have h2 : load_all_go (save_data ((t, samples) :: rest)) pre =
        load_all_go (save_data rest) (pre ++ [(t, samples)]) := by
      simp only [save_data, List.map_cons, load_all_go, h1]
    rw [h2, ih (pre ++ [(t, samples)]) ?_ hnd.2
      (fun q hq => hne q (List.mem_cons_of_mem _ hq))
      (fun q hq => hval q (List.mem_cons_of_mem _ hq))]
    · simp
    · intro x hx
      rw [dictKeys_append, List.mem_append, not_or]
      refine ⟨hdis x (by rw [dictKeys_cons]; exact List.mem_cons_of_mem _ hx), ?_⟩
      simp only [dictKeys_cons, dictKeys_nil, List.mem_singleton]
      intro hxt
      exact hnd.1 (hxt ▸ hx)

/-- C3: saving an in-memory data mapping and loading the file back is
field-exact: for every store with distinct targets, non-empty series and
valid timestamps, the save produces the serialized mapping and leaves
the store untouched, and loading that file reconstructs every field of
every sample exactly — the timestamp through the textual `isoformat`
codec, and the optional `fd_count` / `thread_count` fields present after
reload exactly when they were present before (absent fields stay
absent, not zero-filled). -/
theorem c3_save_load_roundtrip (st st' : DataState)
    (hnd : (dictKeys st).Nodup)
    (hne : ∀ p ∈ st, p.2 ≠ [])
    (hval : ∀ p ∈ st, ∀ s ∈ p.2, s.timestamp.valid) :
    save_data_to_file true st = (some (save_data st), st) ∧
    load_data_from_file (some (save_data st)) st' = (true, st) := by
  refine ⟨rfl, ?_⟩
  show load_all_go (save_data st) [] = (true, st)
  rw [load_all_go_save st [] (fun x _ => by simp [dictKeys]) hnd hne hval]
  simp

/-- C3 witness: the concrete one-target store (whose sample leaves both
optional fields absent) survives the save/load round trip exactly. -/
theorem c3_save_load_roundtrip_witness :
    ((dictKeys stData0).Nodup ∧ (∀ p ∈ stData0, p.2 ≠ []) ∧
      (∀ p ∈ stData0, ∀ s ∈ p.2, s.timestamp.valid)) ∧
    save_data_to_file true stData0 = (some (save_data stData0), stData0) ∧
    load_data_from_file (some (save_data stData0)) [] = (true, stData0) :=
  ⟨⟨by decide, by decide, by decide⟩,
   c3_save_load_roundtrip stData0 [] (by decide) (by decide) (by decide)⟩

/-! ### C4 — snapshots share list objects -/

theorem lookupDict_eq_none_iff {α : Type} (st : List (String × α)) (t : String) :
    lookupDict st t = none ↔ t ∉ dictKeys st := by
  induction st with
  | nil => simp [lookupDict, dictKeys]
  | cons p rest ih =>
    obtain ⟨k, v⟩ := p
    by_cases h : k = t
    · subst h; simp [lookupDict, dictKeys_cons]
    · simp [lookupDict, h, dictKeys_cons, ih, Ne.symm h]

theorem lookupDict_mem {α : Type} (st : List (String × α)) (t : String) (v : α)
    (h : lookupDict st t = some v) : (t, v) ∈ st := by
  induction st with
  | nil => simp [lookupDict] at h
  | cons p rest ih =>
    obtain ⟨k, v0⟩ := p
    by_cases hk : k = t
    · subst hk
      rw [lookupDict, if_pos rfl, Option.some.injEq] at h
      subst h
      exact List.mem_cons_self _ _
    · rw [lookupDict, if_neg hk] at h
      exact List.mem_cons_of_mem _ (ih h)

theorem mem_dictKeys_exists_lookup {α : Type} (st : List (String × α)) (t : String)
    (h : t ∈ dictKeys st) : ∃ v, lookupDict st t = some v := by
  cases hl : lookupDict st t with
  | none => exact absurd h ((lookupDict_eq_none_iff st t).1 hl)
  | some v => exact ⟨v, rfl⟩

/-- C4 counterexample: `get_data` is `dict(self.data)`, a copy of the
outer mapping only — after taking a snapshot of the concrete store, one
more append to the existing target changes the series read through the
previously returned snapshot, so the snapshot is not a defensive copy of
the series. -/
theorem c4_snapshot_counterexample :
    read_series (ref_append refStore0 "svc" sampleA).heap (get_data refStore0) "svc" ≠
      read_series refStore0.heap (get_data refStore0) "svc" := by
  intro hcontra
  rw [show read_series (ref_append refStore0 "svc" sampleA).heap
        (get_data refStore0) "svc" = some [sampleA, sampleA] from rfl,
      show read_series refStore0.heap (get_data refStore0) "svc" = some [sampleA]
        from rfl] at hcontra
  have hlen := congrArg (fun o => (Option.getD o []).length) hcontra
  simp at hlen

/-- C4 (amended): the snapshot is a copy of the outer mapping with the
series lists shared.  Targets absent at snapshot time never appear
through it, and appends to other targets leave a snapshot series
unchanged; but an append to an existing target is visible through the
previously returned snapshot (the snapshot reader itself performs no
mutation — `read_series` is pure). -/
theorem c4_snapshot_shallow_copy (st : RefStore) (hwf : st.WF) (t : String)
    (s : Sample) (t' : String) :
    (t' ∉ dictKeys st.mapping →
      read_series (ref_append st t s).heap (get_data st) t' = none ∧
      read_series st.heap (get_data st) t' = none) ∧
    (t' ∈ dictKeys st.mapping → t' ≠ t →
      read_series (ref_append st t s).heap (get_data st) t' =
        read_series st.heap (get_data st) t') ∧
    (t ∈ dictKeys st.mapping →
      read_series (ref_append st t s).heap (get_data st) t =
        (read_series st.heap (get_data st) t).map (fun l => l ++ [s])) := by
  refine ⟨?_, ?_, ?_⟩
  · intro h
    have hnone : lookupDict st.mapping t' = none := (lookupDict_eq_none_iff _ _).2 h
    constructor <;> simp [read_series, get_data, hnone]
  · intro h hne
    obtain ⟨r', hr'⟩ := mem_dictKeys_exists_lookup _ _ h
    simp only [read_series, get_data, hr', Option.map_some']
    cases hl : lookupDict st.mapping t with
    | none =>
      simp only [ref_append, hl]
      have hlt : r' < st.heap.length := hwf.2 (t', r') (lookupDict_mem _ _ _ hr')
      simp [List.getD_eq_getElem?_getD, List.getElem?_append_left hlt]
    | some r =>
      simp only [ref_append, hl]
      have hmem1 : (t', r') ∈ st.mapping := lookupDict_mem _ _ _ hr'
      have hmem2 : (t, r) ∈ st.mapping := lookupDict_mem _ _ _ hl
      have hrr : r ≠ r' := by
        intro hEq
        subst hEq
        have heq := List.inj_on_of_nodup_map hwf.1 hmem2 hmem1 rfl
        rw [Prod.mk.injEq] at heq
        exact hne (heq.1.symm)
      simp [List.getD_eq_getElem?_getD, List.getElem?_set_ne hrr]
  · intro h
    obtain ⟨r, hr⟩ := mem_dictKeys_exists_lookup _ _ h
    have hlt : r < st.heap.length := hwf.2 (t, r) (lookupDict_mem _ _ _ hr)
    simp only [read_series, get_data, ref_append, hr, Option.map_some']
    simp [List.getD_eq_getElem?_getD, List.getElem?_set_self, hlt]

/-- C4 witness: on the concrete well-formed store, the append to the
existing target `svc` is visible through the snapshot taken earlier. -/
theorem c4_snapshot_shallow_copy_witness :
    refStore0.WF ∧ "svc" ∈ dictKeys refStore0.mapping ∧
    read_series (ref_append refStore0 "svc" sampleA).heap (get_data refStore0) "svc" =
      (read_series refStore0.heap (get_data refStore0) "svc").map
        (fun l => l ++ [sampleA]) := by
  have hwf : refStore0.WF := ⟨by decide, by decide⟩
  exact ⟨hwf, by decide,
    (c4_snapshot_shallow_copy refStore0 hwf "svc" sampleA "svc").2.2 (by decide)⟩

/-! ### C7 — optional metric groups present iff some value is non-zero -/

/-- C7: an optional metric group (disk I/O, network I/O, context
switches, thread count) appears in the analysis result exactly when at
least one value of that group across the whole series is non-zero;
otherwise the group is entirely absent.  The monitoring configuration
does not enter `analyze_data` at all, so this holds regardless of which
metrics were enabled. -/
theorem c7_optional_groups_presence (name : String) (i0 : ReportItem)
    (rest : List ReportItem) :
    ((analyze_process name i0 rest).disk_io.isSome ↔
      (∃ i ∈ i0 :: rest, i.disk_read_bytes.getD 0 ≠ 0) ∨
      (∃ i ∈ i0 :: rest, i.disk_write_bytes.getD 0 ≠ 0)) ∧
    ((analyze_process name i0 rest).network_io.isSome ↔
      (∃ i ∈ i0 :: rest, i.network_rx_bytes.getD 0 ≠ 0) ∨
      (∃ i ∈ i0 :: rest, i.network_tx_bytes.getD 0 ≠ 0)) ∧
    ((analyze_process name i0 rest).context_switches.isSome ↔
      (∃ i ∈ i0 :: rest, i.voluntary_switches.getD 0 ≠ 0) ∨
      (∃ i ∈ i0 :: rest, i.involuntary_switches.getD 0 ≠ 0)) ∧
    ((analyze_process name i0 rest).thread_count.isSome ↔
      ∃ i ∈ i0 :: rest, i.thread_count.getD 0 ≠ 0) := by
  refine ⟨?_, ?_, ?_, ?_⟩ <;>
  · simp only [analyze_process]
    split_ifs with h <;>
      simp only [Option.isSome_some, Option.isSome_none, true_iff, false_iff] <;>
      revert h <;>
      simp [List.any_map, Function.comp, List.any_eq_true, bne_iff_ne]

/-- C7 witness: the presence characterization applied to the concrete
record with no optional metrics. -/
theorem c7_optional_groups_presence_witness :
    (analyze_process "a" item0 []).thread_count.isSome ↔
      ∃ i ∈ [item0], i.thread_count.getD 0 ≠ 0 :=
  (c7_optional_groups_presence "a" item0 []).2.2.2

/-! ### C8 — basic metric statistics -/

theorem le_foldl_max (a : ℚ) (l : List ℚ) : a ≤ l.foldl max a := by
  induction l generalizing a with
  | nil => exact le_refl a
  | cons x xs ih => exact le_trans (le_max_left a x) (ih (max a x))

theorem mem_le_foldl_max (l : List ℚ) (a x : ℚ) (h : x ∈ l) : x ≤ l.foldl max a := by
  induction l generalizing a with
  | nil => cases h
  | cons y ys ih =>
    rw [List.foldl_cons]
    rcases List.mem_cons.1 h with rfl | h2
    · exact le_trans (le_max_right a x) (le_foldl_max _ _)
    · exact ih _ h2

theorem foldl_max_mem (l : List ℚ) (a : ℚ) : l.foldl max a = a ∨ l.foldl max a ∈ l := by
  induction l generalizing a with
  | nil => exact Or.inl rfl
  | cons x xs ih =>
    rw [List.foldl_cons]
    rcases ih (max a x) with h | h
    · rcases max_choice a x with hm | hm
      · exact Or.inl (h.trans hm)
      · exact Or.inr (by rw [h, hm]; exact List.mem_cons_self _ _)
    · exact Or.inr (List.mem_cons_of_mem _ h)

theorem foldl_min_le (a : ℚ) (l : List ℚ) : l.foldl min a ≤ a := by
  induction l generalizing a with
  | nil => exact le_refl a
  | cons x xs ih => exact le_trans (ih (min a x)) (min_le_left a x)

theorem foldl_min_le_mem (l : List ℚ) (a x : ℚ) (h : x ∈ l) : l.foldl min a ≤ x := by
  induction l generalizing a with
  | nil => cases h
  | cons y ys ih =>
    rw [List.foldl_cons]
    rcases List.mem_cons.1 h with rfl | h2
    · exact le_trans (foldl_min_le _ _) (min_le_right a x)
    · exact ih _ h2

theorem foldl_min_mem (l : List ℚ) (a : ℚ) : l.foldl min a = a ∨ l.foldl min a ∈ l := by
  induction l generalizing a with
  | nil => exact Or.inl rfl
  | cons x xs ih =>
    rw [List.foldl_cons]
    rcases ih (min a x) with h | h
    · rcases min_choice a x with hm | hm
      · exact Or.inl (h.trans hm)
      · exact Or.inr (by rw [h, hm]; exact List.mem_cons_self _ _)
    · exact Or.inr (List.mem_cons_of_mem _ h)

theorem listMax_spec (l : List ℚ) (h : l ≠ []) :
    listMax l ∈ l ∧ ∀ x ∈ l, x ≤ listMax l := by
  cases l with
  | nil => exact absurd rfl h
  | cons y ys =>
    rw [listMax]
    refine ⟨?_, ?_⟩
    · rcases foldl_max_mem ys y with hm | hm
      · rw [hm]; exact List.mem_cons_self _ _
      · exact List.mem_cons_of_mem _ hm
    · intro x hx
      rcases List.mem_cons.1 hx with rfl | hx2
      · exact le_foldl_max _ _
      · exact mem_le_foldl_max _ _ _ hx2

theorem listMin_spec (l : List ℚ) (h : l ≠ []) :
    listMin l ∈ l ∧ ∀ x ∈ l, listMin l ≤ x := by
  cases l with
  | nil => exact absurd rfl h
  | cons y ys =>
    rw [listMin]
    refine ⟨?_, ?_⟩
    · rcases foldl_min_mem ys y with hm | hm
      · rw [hm]; exact List.mem_cons_self _ _
      · exact List.mem_cons_of_mem _ hm
    · intro x hx
      rcases List.mem_cons.1 hx with rfl | hx2
      · exact foldl_min_le _ _
      · exact foldl_min_le_mem _ _ _ hx2

theorem roundHalfEven_intCast (n : ℤ) : roundHalfEven (n : ℚ) = n := by
  simp [roundHalfEven, Int.floor_intCast]

theorem round2R_zero : round2R 0 = 0 := by
  have h : roundHalfEvenR (0 : ℝ) = 0 := by
    simp [roundHalfEvenR]
  simp [round2R, h]

/-- C8: for every non-empty series, each of the three basic metrics
(cpu, memory percent, memory MB) is reduced to the mean, maximum,
minimum and standard deviation of the series' values, each rounded to
two decimal digits, with the standard deviation defined as `0` below two
data points; in particular `[1, 3, 5]` yields avg 3, max 5, min 1, and a
single-point series yields std 0. -/
theorem c8_basic_metric_stats :
    (∀ l : List ℚ, l ≠ [] →
      (mkStats l).avg = round2 (l.sum / l.length) ∧
      (∃ M ∈ l, (∀ x ∈ l, x ≤ M) ∧ (mkStats l).max = round2 M) ∧
      (∃ m ∈ l, (∀ x ∈ l, m ≤ x) ∧ (mkStats l).min = round2 m) ∧
      (l.length < 2 → (mkStats l).std = 0)) ∧
    (∀ (name : String) (i0 : ReportItem) (rest : List ReportItem),
      (analyze_process name i0 rest).cpu = mkStats ((i0 :: rest).map (·.cpu_percent)) ∧
      (analyze_process name i0 rest).memory_percent =
        mkStats ((i0 :: rest).map (·.memory_percent)) ∧
      (analyze_process name i0 rest).memory_mb =
        mkStats ((i0 :: rest).map (·.memory_mb))) ∧
    (mkStats [1, 3, 5]).avg = 3 ∧ (mkStats [1, 3, 5]).max = 5 ∧
    (mkStats [1, 3, 5]).min = 1 ∧ (∀ x : ℚ, (mkStats [x]).std = 0) := by
  refine ⟨?_, ?_, ?_, ?_, ?_, ?_⟩
  · intro l hl
    refine ⟨rfl, ?_, ?_, ?_⟩
    · obtain ⟨hmem, hbound⟩ := listMax_spec l hl
      exact ⟨listMax l, hmem, hbound, rfl⟩
    · obtain ⟨hmem, hbound⟩ := listMin_spec l hl
      exact ⟨listMin l, hmem, hbound, rfl⟩
    · intro hlt
      have h2 : ¬1 < l.length := by omega
      show round2R (if 1 < l.length then stdev l else 0) = 0
      rw [if_neg h2, round2R_zero]
  · intro name i0 rest
    exact ⟨rfl, rfl, rfl⟩
  · show round2 (listMean [1, 3, 5]) = 3
    have h : listMean [(1 : ℚ), 3, 5] = ((3 : ℤ) : ℚ) := by
      norm_num [listMean]
    rw [h, show ((3 : ℤ) : ℚ) = (((300 : ℤ) : ℚ)) / 100 from by norm_num]
    rw [round2, show ((((300 : ℤ) : ℚ)) / 100) * 100 = ((300 : ℤ) : ℚ) from by ring]
    rw [roundHalfEven_intCast]
    try norm_num
  · show round2 (listMax [1, 3, 5]) = 5
    have h : listMax [(1 : ℚ), 3, 5] = 5 := by
      rw [listMax]
      norm_num [max_def]
    rw [h, show (5 : ℚ) = (((500 : ℤ) : ℚ)) / 100 from by norm_num]
    rw [round2, show ((((500 : ℤ) : ℚ)) / 100) * 100 = ((500 : ℤ) : ℚ) from by ring]
    rw [roundHalfEven_intCast]
    try norm_num
  · show round2 (listMin [1, 3, 5]) = 1
    have h : listMin [(1 : ℚ), 3, 5] = 1 := by
      rw [listMin]
      norm_num [min_def]
    rw [h, show (1 : ℚ) = (((100 : ℤ) : ℚ)) / 100 from by norm_num]
    rw [round2, show ((((100 : ℤ) : ℚ)) / 100) * 100 = ((100 : ℤ) : ℚ) from by ring]
    rw [roundHalfEven_intCast]
    try norm_num
  · intro x
    show round2R (if 1 < [x].length then stdev [x] else 0) = 0
    rw [if_neg (by simp), round2R_zero]

/-- C8 witness: the general statement applied to the concrete non-empty
series `[1, 3, 5]`. -/
theorem c8_basic_metric_stats_witness :
    ([(1 : ℚ), 3, 5] ≠ []) ∧
    ((mkStats [(1 : ℚ), 3, 5]).avg = round2 ([(1 : ℚ), 3, 5].sum / [(1 : ℚ), 3, 5].length) ∧
      (∃ M ∈ [(1 : ℚ), 3, 5], (∀ x ∈ [(1 : ℚ), 3, 5], x ≤ M) ∧
        (mkStats [(1 : ℚ), 3, 5]).max = round2 M) ∧
      (∃ m ∈ [(1 : ℚ), 3, 5], (∀ x ∈ [(1 : ℚ), 3, 5], m ≤ x) ∧
        (mkStats [(1 : ℚ), 3, 5]).min = round2 m) ∧
      ([(1 : ℚ), 3, 5].length < 2 → (mkStats [(1 : ℚ), 3, 5]).std = 0)) :=
  ⟨by simp, c8_basic_metric_stats.1 [(1 : ℚ), 3, 5] (by simp)⟩

end ProcessMonitor
